import Mathlib

/-!
Verification of the static XML feed transformer (`transform.py` plus the
ozone partner configuration `partners/ozone/config.py`).

The embedding below mirrors the Python source:

* Python `dict[str, str]` values become association lists (`Dict`), looked up
  first-match; insertion order is the list order.
* An lxml element is only ever consulted through `element.xpath(expr, ...)`,
  so a source product node is modelled by that evaluation function: for each
  expression and namespace table it yields a list of results or an evaluation
  error (the `except` route).
* Fallible Python calls are modelled with `Except`.  Two genuine lxml raise
  points inside the per-product loop matter for the theorems:
  `etree.CDATA(value)` raises `ValueError` in its constructor when `value`
  contains the substring "]]>" (checked in lxml's `CDATA.__cinit__`), and
  this happens after `etree.SubElement` has already attached the field
  element, so a partially built item element stays attached to the output
  root when the per-product `except` handler fires.  Plain-text assignment
  and `SubElement` with the profile's fixed tag names are modelled total:
  text extracted from a parsed XML document cannot contain the control
  characters lxml rejects, and the ozone tag names are valid.
-/

/-- A Python `dict[str, str]`, as an association list in insertion order. -/
abbrev Dict := List (String × String)

/-- Python `d.get(k)`: the first binding of `k`, or `none` when absent. -/
def dictGet? (d : Dict) (k : String) : Option String :=
  match d with
  | [] => none
  | kv :: rest => if kv.1 = k then some kv.2 else dictGet? rest k

/-- Python `d.get(k, default)`. -/
def dictGetD (d : Dict) (k : String) (default : String) : String :=
  (dictGet? d k).getD default

/-- Python truthiness of `d.get(k)`: the key is bound to a non-empty string. -/
def dictTruthy (d : Dict) (k : String) : Bool :=
  !(dictGetD d k "" == "")

/-- An XPath namespace table (`prefix -> URI`). -/
abbrev NSMap := List (String × String)

/-- One result of an lxml XPath evaluation: either a string (text node,
attribute value, ...) or a non-string result such as an element node. -/
inductive XItem where
  | str (s : String)
  | node
deriving DecidableEq

/-- The message of a raised Python exception. -/
abbrev PyErr := String

/-- A source product element, modelled by the outcome of each XPath query
run against it: `element.xpath(expr, namespaces=ns)` returns a result list
or raises (the `Except.error` case). -/
structure ProductNode where
  xpath : String → NSMap → Except Unit (List XItem)

/-- A parsed source document, modelled by the node list that the
`//sc:Products/sc:Product` query returns on its root. -/
structure SourceDoc where
  products : List ProductNode

/-- Python `str.strip()`: drop leading and trailing whitespace.  Defined by
structural recursion on the character data so concrete runs reduce. -/
def pyStrip (s : String) : String :=
  ⟨((s.data.dropWhile Char.isWhitespace).reverse.dropWhile Char.isWhitespace).reverse⟩

/-- Python `str.lower()`, characterwise (the stock tokens compared through
it are ASCII, where the two agree). -/
def pyLower (s : String) : String :=
  ⟨s.data.map Char.toLower⟩

/-- `str(result[0]).strip() if isinstance(result[0], str) else ""` from
`extract_text`: a string result is stripped, any other result gives the
empty string (so the default is used). -/
def firstToText : XItem → String
  | .str s => pyStrip s
  | .node => ""

/-- Shallow embedding of `extract_text`: the `try` body is the match on the
evaluation outcome, the bare `except` is the `.error` case falling through
to `return default`.  Passing an empty namespace table is equivalent to the
code's omission of the `namespaces` keyword argument. -/
def extract_text (res : Except Unit (List XItem)) (default : String) : String :=
  match res with
  | .ok [] => default
  | .ok (x :: _) =>
      let text := firstToText x
      if text == "" then default else text
  | .error _ => default

/-- `extract_text` as called on an element: evaluate the XPath expression
against the context node, then post-process the outcome. -/
def extractTextOn (p : ProductNode) (expr : String) (default : String) (ns : NSMap) : String :=
  extract_text (p.xpath expr ns) default

/-- One `OUTPUT_SCHEMA` entry: the `(xml_tag, required, use_cdata)` tuple. -/
structure SchemaField where
  name : String
  required : Bool
  use_cdata : Bool
deriving DecidableEq

/-- A partner configuration module, as `transform_feed` consumes it.  The
partner transform function may raise, hence its `Except` result. -/
structure Profile where
  SOURCE_NAMESPACE : NSMap
  FIELD_MAPPINGS : List (String × String)
  DEFAULTS : Dict
  OUTPUT_SCHEMA : List SchemaField
  OUTPUT_ROOT_ELEMENT : String
  OUTPUT_PRODUCT_ELEMENT : String
  transform_product : Dict → Except PyErr Dict

/-- Text stored on an emitted field element: plain text (serialized with
markup escaping) or a CDATA section (serialized verbatim). -/
inductive FieldVal where
  | txt (s : String)
  | cdata (s : String)
deriving DecidableEq

/-- A child element of an output item: its tag and the stored text; `none`
when an exception fired between element creation and text assignment. -/
structure OutField where
  tag : String
  val : Option FieldVal
deriving DecidableEq

/-- An `<item>` element of the output document. -/
structure Item where
  tag : String
  fields : List OutField
deriving DecidableEq

/-- The output document: the root element and its item children in order. -/
structure OutputDoc where
  root : String
  items : List Item
deriving DecidableEq

/-- Is `pat` a leading prefix of `l`? -/
def charsLead : List Char → List Char → Bool
  | [], _ => true
  | _ :: _, [] => false
  | a :: as, b :: bs => a == b && charsLead as bs

/-- Does `l` contain `pat` as a contiguous run? -/
def charsContain : List Char → List Char → Bool
  | [], pat => pat.isEmpty
  | l@(_ :: rest), pat => charsLead pat l || charsContain rest pat

/-- Python `pat in s` on strings (lxml uses it to reject "]]>" in CDATA). -/
def strContains (s pat : String) : Bool :=
  charsContain s.data pat.data

/-- Step (a) of the per-product loop: the Raw Product Record, one
`extract_text` call per `FIELD_MAPPINGS` entry, defaulting from `DEFAULTS`
(empty string when the field has no declared default). -/
def rawRecord (cfg : Profile) (p : ProductNode) : Dict :=
  cfg.FIELD_MAPPINGS.map fun fq =>
    (fq.1, extractTextOn p fq.2 (dictGetD cfg.DEFAULTS fq.1 "") cfg.SOURCE_NAMESPACE)

/-- The `missing_required` list built by the validation loop: required
schema fields whose value in the output record is absent or empty. -/
def missingRequired (cfg : Profile) (out : Dict) : List String :=
  (cfg.OUTPUT_SCHEMA.filter fun e => e.required && !(dictTruthy out e.name)).map fun e => e.name

/-- The field-emission loop over `OUTPUT_SCHEMA`.  Fields absent from the
output record are skipped.  A non-empty value of a CDATA-flagged field that
contains "]]>" makes `etree.CDATA` raise: the field element (already
attached, with no text) stays, and the loop is aborted — the `false` flag
records that the per-product `except` handler caught an exception here. -/
def emitFields (schema : List SchemaField) (out : Dict) : List OutField × Bool :=
  match schema with
  | [] => ([], true)
  | e :: rest =>
    match dictGet? out e.name with
    | none => emitFields rest out
    | some value =>
      if e.use_cdata && !(value == "") then
        if strContains value "]]>" then
          ([⟨e.name, none⟩], false)
        else
          let r := emitFields rest out
          (⟨e.name, some (.cdata value)⟩ :: r.1, r.2)
      else
        let r := emitFields rest out
        (⟨e.name, some (.txt value)⟩ :: r.1, r.2)

/-- What the loop body did for one product. -/
inductive ProdResult where
  /-- An exception fired before the item element was created (the partner
  transform function raised); nothing was attached to the output root. -/
  | raisedBefore (e : PyErr)
  /-- Required-field validation failed; the record was discarded before any
  element was created. -/
  | invalid (missing : List String)
  /-- An item element was attached; `clean` is false when an exception fired
  during field emission, leaving the item partially filled. -/
  | emitted (it : Item) (clean : Bool)
deriving DecidableEq

/-- The body of the per-product loop of `transform_feed`: extraction (never
raises), the partner transform (may raise), required-field validation, then
field emission into a freshly attached item element. -/
def processProduct (cfg : Profile) (p : ProductNode) : ProdResult :=
  match cfg.transform_product (rawRecord cfg p) with
  | .error e => .raisedBefore e
  | .ok output_fields =>
    let missing := missingRequired cfg output_fields
    if missing.isEmpty then
      let r := emitFields cfg.OUTPUT_SCHEMA output_fields
      .emitted ⟨cfg.OUTPUT_PRODUCT_ELEMENT, r.1⟩ r.2
    else
      .invalid missing

/-- The item element this product left attached to the output root, if any. -/
def itemOf : ProdResult → Option Item
  | .raisedBefore _ => none
  | .invalid _ => none
  | .emitted it _ => some it

/-- Did processing this product raise an exception (caught by the
per-product handler)? -/
def raised : ProdResult → Bool
  | .raisedBefore _ => true
  | .invalid _ => false
  | .emitted _ clean => !clean

/-- Shallow embedding of `transform_feed`: an empty product list returns the
bare root; otherwise each product contributes its attached item, in source
order. -/
def transform_feed (doc : SourceDoc) (cfg : Profile) : OutputDoc :=
  if doc.products.isEmpty then
    ⟨cfg.OUTPUT_ROOT_ELEMENT, []⟩
  else
    ⟨cfg.OUTPUT_ROOT_ELEMENT, doc.products.filterMap fun p => itemOf (processProduct cfg p)⟩

/-- Products dropped by required-field validation. -/
def countInvalid (cfg : Profile) : List ProductNode → Nat
  | [] => 0
  | p :: ps =>
    (match processProduct cfg p with
     | .invalid _ => 1
     | _ => 0) + countInvalid cfg ps

/-- Products whose processing raised an exception (before or during emission). -/
def countRaised (cfg : Profile) : List ProductNode → Nat
  | [] => 0
  | p :: ps => (if raised (processProduct cfg p) then 1 else 0) + countRaised cfg ps

/-- Products whose processing raised before their item element was created. -/
def countRaisedBefore (cfg : Profile) : List ProductNode → Nat
  | [] => 0
  | p :: ps =>
    (match processProduct cfg p with
     | .raisedBefore _ => 1
     | _ => 0) + countRaisedBefore cfg ps

/-- Embedding of `main`: run fetch, parse, transform, write in sequence; any
stage failure calls `sys.exit(1)`, success ends with exit status 0.  The
result is the exit status and the written document, if any. -/
def runMain (fetched : Except Unit String) (parsed : String → Except Unit SourceDoc)
    (cfg : Profile) (write : OutputDoc → Except Unit Unit) : Nat × Option OutputDoc :=
  match fetched with
  | .error _ => (1, none)
  | .ok content =>
    match parsed content with
    | .error _ => (1, none)
    | .ok doc =>
      let out := transform_feed doc cfg
      match write out with
      | .error _ => (1, none)
      | .ok _ => (0, some out)

namespace Ozone

/-- `SOURCE_NAMESPACE` from `partners/ozone/config.py`. -/
def SOURCE_NAMESPACE : NSMap :=
  [("sc", "http://schemas.summercart.com/dealer/v1")]

/-- `FIELD_MAPPINGS` from `partners/ozone/config.py`. -/
def FIELD_MAPPINGS : List (String × String) :=
  [ ("catalog_num", ".//sc:ProductCode/text()"),
    ("name", ".//sc:ProductName/sc:BG/text()"),
    ("price", ".//sc:ProductPrice/text()"),
    ("price_client", ".//sc:ProductDistributorPrice/text()"),
    ("quantity_label", ".//sc:ProductQuantityLabel/text()"),
    ("barcode", ".//sc:ProductBarcode/text()"),
    ("brand", ".//sc:BrandName/sc:BG/text()"),
    ("category", ".//sc:CategoryPath/sc:BG/text()"),
    ("color", ".//sc:Color/sc:BG/text()") ]

/-- `STOCK_MAPPING` from `partners/ozone/config.py`. -/
def STOCK_MAPPING : Dict :=
  [("instock", "Да"), ("outofstock", "Не")]

/-- `DEFAULTS` from `partners/ozone/config.py`. -/
def DEFAULTS : Dict :=
  [ ("catalog_num", ""),
    ("name", ""),
    ("price", "0"),
    ("price_client", "0"),
    ("available", "Не"),
    ("barcode", "N/A"),
    ("brand", "N/A"),
    ("category", ""),
    ("color", "N/A") ]

/-- `OUTPUT_SCHEMA` from `partners/ozone/config.py`. -/
def OUTPUT_SCHEMA : List SchemaField :=
  [ ⟨"catalog_num", true, false⟩,
    ⟨"name", true, true⟩,
    ⟨"price", true, false⟩,
    ⟨"price_client", true, false⟩,
    ⟨"available", false, false⟩,
    ⟨"barcode", false, true⟩,
    ⟨"brand", false, true⟩,
    ⟨"category", false, true⟩,
    ⟨"color", false, true⟩ ]

/-- Python `x or default` on strings: the default when `x` is empty. -/
def pyOr (x default : String) : String :=
  if x == "" then default else x

/-- `transform_product` from `partners/ozone/config.py`. -/
def transform_product (product_data : Dict) : Dict :=
  let quantity_label := pyLower (dictGetD product_data "quantity_label" "")
  let available := dictGetD STOCK_MAPPING quantity_label (dictGetD DEFAULTS "available" "")
  [ ("catalog_num", dictGetD product_data "catalog_num" (dictGetD DEFAULTS "catalog_num" "")),
    ("name", dictGetD product_data "name" (dictGetD DEFAULTS "name" "")),
    ("price", dictGetD product_data "price" (dictGetD DEFAULTS "price" "")),
    ("price_client", dictGetD product_data "price_client" (dictGetD DEFAULTS "price_client" "")),
    ("available", available),
    ("barcode", pyOr (dictGetD product_data "barcode" (dictGetD DEFAULTS "barcode" "")) (dictGetD DEFAULTS "barcode" "")),
    ("brand", pyOr (dictGetD product_data "brand" (dictGetD DEFAULTS "brand" "")) (dictGetD DEFAULTS "brand" "")),
    ("category", pyOr (dictGetD product_data "category" (dictGetD DEFAULTS "category" "")) (dictGetD DEFAULTS "category" "")),
    ("color", pyOr (dictGetD product_data "color" (dictGetD DEFAULTS "color" "")) (dictGetD DEFAULTS "color" "")) ]

/-- The ozone partner profile, assembled as `transform_feed` sees it.  The
config's `transform_product` is pure Python dictionary code and never
raises, hence the `.ok` wrapper. -/
def profile : Profile :=
  { SOURCE_NAMESPACE := SOURCE_NAMESPACE
    FIELD_MAPPINGS := FIELD_MAPPINGS
    DEFAULTS := DEFAULTS
    OUTPUT_SCHEMA := OUTPUT_SCHEMA
    OUTPUT_ROOT_ELEMENT := "products"
    OUTPUT_PRODUCT_ELEMENT := "item"
    transform_product := fun d => .ok (transform_product d) }

end Ozone

/-- A source product node answering each XPath query with the single text
result a table assigns it, and with an empty result list elsewhere — the
shape a well-formed feed entry produces. -/
def nodeOfTable (t : List (String × String)) : ProductNode :=
  ⟨fun expr _ns =>
    match dictGet? t expr with
    | some s => .ok [.str s]
    | none => .ok []⟩

/-- A well-formed product: every required source field present. -/
def pGood : ProductNode :=
  nodeOfTable
    [ (".//sc:ProductCode/text()", "123"),
      (".//sc:ProductName/sc:BG/text()", "Toy"),
      (".//sc:ProductPrice/text()", "10"),
      (".//sc:ProductDistributorPrice/text()", "8"),
      (".//sc:ProductQuantityLabel/text()", "InStock") ]

/-- A product whose name field contains "]]>", which `etree.CDATA` refuses:
validation passes, then emission raises mid-item. -/
def pBad : ProductNode :=
  nodeOfTable
    [ (".//sc:ProductCode/text()", "123"),
      (".//sc:ProductName/sc:BG/text()", "X]]>Y"),
      (".//sc:ProductPrice/text()", "10"),
      (".//sc:ProductDistributorPrice/text()", "8") ]

/-- A product with no name in the source: the extracted name defaults to the
empty string, so required-field validation fails. -/
def pNoName : ProductNode :=
  nodeOfTable
    [ (".//sc:ProductCode/text()", "456"),
      (".//sc:ProductPrice/text()", "10"),
      (".//sc:ProductDistributorPrice/text()", "8") ]

/-- Coercion of the first XPath result to text as the code performs it
(`str(result[0]) if isinstance(result[0], str) else ""`): a string result is
itself, any non-string result coerces to the empty string. -/
def coerceToText : XItem → String
  | .str s => s
  | .node => ""

/-- The Field Extractor contract transcribed from the spec: evaluate the
expression; if it yields one or more results, take the first, coerce to
text, strip leading and trailing whitespace; if the result is empty after
stripping, or no results were found, or evaluation raised any error, return
the default. -/
def extractTextSpec (res : Except Unit (List XItem)) (default : String) : String :=
  match res with
  | .error _ => default
  | .ok [] => default
  | .ok (x :: _) =>
    let stripped := pyStrip (coerceToText x)
    if stripped == "" then default else stripped

/-- Markup escaping of element text content, character by character, as the
serializer writes plain (non-CDATA) text. -/
def escapeChars : List Char → List Char
  | [] => []
  | c :: rest =>
    (if c = '&' then ['&', 'a', 'm', 'p', ';']
     else if c = '<' then ['&', 'l', 't', ';']
     else if c = '>' then ['&', 'g', 't', ';']
     else [c]) ++ escapeChars rest

/-- Markup escaping of a text value. -/
def escapeXml (s : String) : String :=
  ⟨escapeChars s.data⟩

/-- Decoding of escaped text, as an XML parser reads the serialized form
back: each entity becomes its character, everything else is verbatim. -/
def unescapeChars : List Char → List Char
  | [] => []
  | c :: rest =>
    if c = '&' then
      if charsLead ['a', 'm', 'p', ';'] rest then '&' :: unescapeChars (rest.drop 4)
      else if charsLead ['l', 't', ';'] rest then '<' :: unescapeChars (rest.drop 3)
      else if charsLead ['g', 't', ';'] rest then '>' :: unescapeChars (rest.drop 3)
      else c :: unescapeChars rest
    else c :: unescapeChars rest
termination_by l => l.length
decreasing_by all_goals simp only [List.length_drop, List.length_cons]; omega

/-- Decoding of an escaped text value. -/
def unescapeXml (s : String) : String :=
  ⟨unescapeChars s.data⟩

/-- Serialization of one emitted field element: CDATA-stored text is written
verbatim between the section delimiters, plain text is markup-escaped, and a
field whose text was never assigned serializes as an empty element. -/
def serializeField : OutField → String
  | ⟨tag, none⟩ => "<" ++ tag ++ "/>"
  | ⟨tag, some (.txt s)⟩ => "<" ++ tag ++ ">" ++ escapeXml s ++ "</" ++ tag ++ ">"
  | ⟨tag, some (.cdata s)⟩ => "<" ++ tag ++ "><![CDATA[" ++ s ++ "]]></" ++ tag ++ ">"

/-- Rebuilding a string from its character data gives the string back. -/
theorem string_mk_data (s : String) : String.mk s.data = s := by
  cases s
  rfl

/-- The output of `transform_feed` in both branches: each product, in source
order, contributes the item it attached (if any). -/
theorem transform_feed_items (doc : SourceDoc) (cfg : Profile) :
    (transform_feed doc cfg).items = doc.products.filterMap fun p => itemOf (processProduct cfg p) := by
  obtain ⟨ps⟩ := doc
  cases ps <;> simp [transform_feed]

/-- A filtered map is the concatenation of the per-element contributions. -/
theorem filterMap_eq_join_map_toList {α β : Type} (f : α → Option β) (l : List α) :
    l.filterMap f = (l.map fun a => (f a).toList).flatten := by
  induction l with
  | nil => rfl
  | cons a l ih =>
    cases h : f a <;> simp [List.filterMap_cons, h, ih]

/-- The filtered map embeds, in order, into the per-element option list. -/
theorem map_some_filterMap_sublist {α β : Type} (f : α → Option β) (l : List α) :
    ((l.filterMap f).map some).Sublist (l.map f) := by
  induction l with
  | nil => simp
  | cons a l ih =>
    cases h : f a with
    | none =>
      rw [List.map_cons, List.filterMap_cons_none h, h]
      exact ih.cons _
    | some b =>
      rw [List.map_cons, List.filterMap_cons_some h, List.map_cons, h]
      exact ih.cons₂ _

/-- Every product is accounted for exactly once: it contributes an item, or
it failed validation, or the partner transform raised before item creation. -/
theorem processed_partition (cfg : Profile) (ps : List ProductNode) :
    (ps.filterMap fun p => itemOf (processProduct cfg p)).length
      + countInvalid cfg ps + countRaisedBefore cfg ps = ps.length := by
  induction ps with
  | nil => rfl
  | cons p ps ih =>
    cases hpp : processProduct cfg p with
    | raisedBefore e =>
      have hnone : (fun q => itemOf (processProduct cfg q)) p = none := by
        show itemOf (processProduct cfg p) = none
        rw [hpp]
        rfl
      rw [List.filterMap_cons_none (f := fun q => itemOf (processProduct cfg q)) hnone]
      simp only [countInvalid, countRaisedBefore, hpp, List.length_cons]
      omega
    | invalid m =>
      have hnone : (fun q => itemOf (processProduct cfg q)) p = none := by
        show itemOf (processProduct cfg p) = none
        rw [hpp]
        rfl
      rw [List.filterMap_cons_none (f := fun q => itemOf (processProduct cfg q)) hnone]
      simp only [countInvalid, countRaisedBefore, hpp, List.length_cons]
      omega
    | emitted it clean =>
      have hsome : (fun q => itemOf (processProduct cfg q)) p = some it := by
        show itemOf (processProduct cfg p) = some it
        rw [hpp]
        rfl
      rw [List.filterMap_cons_some (f := fun q => itemOf (processProduct cfg q)) hsome]
      simp only [countInvalid, countRaisedBefore, hpp, List.length_cons]
      omega

/-- Python `x or d` is non-empty whenever the fallback `d` is non-empty. -/
theorem pyOr_nonempty (x d : String) (h : (d == "") = false) :
    (Ozone.pyOr x d == "") = false := by
  unfold Ozone.pyOr
  split
  · exact h
  · rename_i hx
    simpa using hx

/-- C5 (confirmed): for every context node, XPath outcome and default,
`extract_text` behaves exactly as the spec describes the Field Extractor:
with one or more results it takes the first, coerces it to text (a
non-string result coerces to the empty string, per the `isinstance` check),
strips it, and returns the default when the stripped text is empty, no
results were found, or evaluation raised; otherwise the stripped text. -/
theorem extract_text_follows_spec (res : Except Unit (List XItem)) (default : String) :
    extract_text res default = extractTextSpec res default := by
  cases res with
  | error e => rfl
  | ok l =>
    cases l with
    | nil => rfl
    | cons x xs =>
      cases x with
      | str s => rfl
      | node => rfl

/-- C6 (confirmed): `extract_text` is total — modelled as a plain function,
with the raising XPath evaluation as an explicit `Except` input — and for
every outcome, error included, it returns either the default (possibly the
empty string) or the non-empty stripped text of the first result. -/
theorem extract_text_never_raises (res : Except Unit (List XItem)) (default : String) :
    extract_text res default = default ∨
      ∃ x xs, res = .ok (x :: xs) ∧ extract_text res default = firstToText x
        ∧ (firstToText x == "") = false := by
  cases res with
  | error e => exact Or.inl rfl
  | ok l =>
    cases l with
    | nil => exact Or.inl rfl
    | cons x xs =>
      by_cases h : (firstToText x == "") = true
      · exact Or.inl (by simp [extract_text, h])
      · refine Or.inr ⟨x, xs, rfl, by simp [extract_text, h], by simpa using h⟩

/-- C1 (counterexample): a product whose processing raises an exception —
here the required name field of `pBad` contains "]]>", which `etree.CDATA`
refuses after the item element and the name element are already attached —
is skipped, yet a partial item element remains in the output document,
contradicting the claim that dropped records contribute no element. -/
theorem dropped_product_partial_item_counterexample :
    raised (processProduct Ozone.profile pBad) = true ∧
      (transform_feed ⟨[pBad]⟩ Ozone.profile).items =
        [⟨"item", [⟨"catalog_num", some (.txt "123")⟩, ⟨"name", none⟩]⟩] := by
  constructor
  · decide
  · decide

/-- C1 (amended): a product record dropped before its item element is
created — because the partner transform function raised, or because
required-field validation failed — contributes no element to the output
document, and processing continues with the remaining products.  (An
exception raised later, during field emission, instead leaves the
already-created, partially filled item element in the output.) -/
theorem pre_creation_drop_leaves_no_trace (cfg : Profile) (p : ProductNode)
    (ps : List ProductNode)
    (h : (∃ e, processProduct cfg p = .raisedBefore e) ∨
      ∃ m, processProduct cfg p = .invalid m) :
    (transform_feed ⟨p :: ps⟩ cfg).items = (transform_feed ⟨ps⟩ cfg).items := by
  have hnone : (fun q => itemOf (processProduct cfg q)) p = none := by
    show itemOf (processProduct cfg p) = none
    rcases h with ⟨e, he⟩ | ⟨m, hm⟩
    · rw [he]
      rfl
    · rw [hm]
      rfl
  rw [transform_feed_items, transform_feed_items]
  show List.filterMap (fun q => itemOf (processProduct cfg q)) (p :: ps) = _
  rw [List.filterMap_cons_none (f := fun q => itemOf (processProduct cfg q)) hnone]

/-- Witness for C1 (amended): the ozone product with no source name fails
validation and leaves the output of the remaining (empty) product list
unchanged. -/
theorem pre_creation_drop_leaves_no_trace_witness :
    (transform_feed ⟨[pNoName]⟩ Ozone.profile).items = (transform_feed ⟨[]⟩ Ozone.profile).items :=
  pre_creation_drop_leaves_no_trace Ozone.profile pNoName []
    (Or.inr ⟨["name"], by decide⟩)

/-- C2 (counterexample): for the one-product source `pBad`, required-field
validation drops nothing and the product raises an error during processing,
so the claimed equation predicts zero output items; the output document
nevertheless contains one (partial) item element. -/
theorem item_count_equation_counterexample :
    countInvalid Ozone.profile [pBad] = 0 ∧
      countRaised Ozone.profile [pBad] = 1 ∧
      (transform_feed ⟨[pBad]⟩ Ozone.profile).items.length ≠
        [pBad].length - countInvalid Ozone.profile [pBad] - countRaised Ozone.profile [pBad] := by
  refine ⟨by decide, by decide, by decide⟩

/-- C2 (amended): the number of item elements equals the number of source
products minus those dropped by required-field validation and those whose
processing raised before their item element was created (an exception during
field emission still leaves an item); in particular the item count never
exceeds the source product count. -/
theorem item_count_equation (doc : SourceDoc) (cfg : Profile) :
    (transform_feed doc cfg).items.length
        = doc.products.length - countInvalid cfg doc.products - countRaisedBefore cfg doc.products
      ∧ (transform_feed doc cfg).items.length ≤ doc.products.length := by
  have h := processed_partition cfg doc.products
  rw [transform_feed_items]
  omega

/-- C3 (confirmed): the output item list is exactly the concatenation, in
source order, of each product's contribution (one item or none), and it
embeds order-preservingly into the per-product outcome sequence — the
transformation performs no reordering or sorting. -/
theorem output_preserves_source_order (doc : SourceDoc) (cfg : Profile) :
    (transform_feed doc cfg).items
        = (doc.products.map fun p => (itemOf (processProduct cfg p)).toList).flatten
      ∧ ((transform_feed doc cfg).items.map some).Sublist
          (doc.products.map fun p => itemOf (processProduct cfg p)) := by
  rw [transform_feed_items]
  exact ⟨filterMap_eq_join_map_toList _ _, map_some_filterMap_sublist _ _⟩

/-- C4 (confirmed): when the partner transform returns an output record, the
record passes validation exactly when every required schema field is present
and non-empty; if any required field fails, no item element at all is
created for the product, and conversely an emitted item implies the record
passed required-field validation. -/
theorem required_validation_gates_item (cfg : Profile) (p : ProductNode) (out : Dict)
    (hok : cfg.transform_product (rawRecord cfg p) = .ok out) :
    (missingRequired cfg out = [] ↔
        ∀ e ∈ cfg.OUTPUT_SCHEMA, e.required = true → dictTruthy out e.name = true)
      ∧ (missingRequired cfg out ≠ [] → itemOf (processProduct cfg p) = none)
      ∧ (∀ it, itemOf (processProduct cfg p) = some it → missingRequired cfg out = []) := by
  have hchar : missingRequired cfg out = [] ↔
      ∀ e ∈ cfg.OUTPUT_SCHEMA, e.required = true → dictTruthy out e.name = true := by
    unfold missingRequired
    rw [List.map_eq_nil_iff, List.filter_eq_nil_iff]
    constructor
    · intro h e he hr
      have h2 := h e he
      rw [hr] at h2
      simpa using h2
    · intro h e he
      cases hr : e.required with
      | false => simp
      | true => simp [h e he hr]
  have hproc : missingRequired cfg out ≠ [] → itemOf (processProduct cfg p) = none := by
    intro hne
    unfold processProduct
    rw [hok]
    have : (missingRequired cfg out).isEmpty = false := by
      cases hmr : missingRequired cfg out
      · exact absurd hmr hne
      · rfl
    simp only [this]
    rfl
  refine ⟨hchar, hproc, ?_⟩
  intro it hit
  by_contra hne
  rw [hproc hne] at hit
  cases hit

/-- Witness for C4: the ozone product with no source name yields an output
record whose required name field is empty, and no item element is created. -/
theorem required_validation_gates_item_witness :
    itemOf (processProduct Ozone.profile pNoName) = none :=
  (required_validation_gates_item Ozone.profile pNoName
      [("catalog_num", "456"), ("name", ""), ("price", "10"), ("price_client", "8"),
        ("available", "Не"), ("barcode", "N/A"), ("brand", "N/A"), ("category", ""),
        ("color", "N/A")]
      (by rfl)).2.1 (by decide)

/-- C7 (confirmed): the stock/availability output field is always the
lowercased quantity label looked up in `STOCK_MAPPING` with the configured
"not available" default "Не" — so "InStock" matches case-insensitively and
maps to "Да", while an unrecognized or missing label maps to "Не". -/
theorem stock_lookup_case_insensitive :
    (∀ raw : Dict, dictGet? (Ozone.transform_product raw) "available"
        = some (dictGetD Ozone.STOCK_MAPPING (pyLower (dictGetD raw "quantity_label" "")) "Не"))
      ∧ dictGet? (Ozone.transform_product [("quantity_label", "InStock")]) "available" = some "Да"
      ∧ dictGet? (Ozone.transform_product [("quantity_label", "bogus")]) "available" = some "Не"
      ∧ dictGet? (Ozone.transform_product []) "available" = some "Не" := by
  refine ⟨fun _ => rfl, by decide, by decide, by decide⟩

/-- C9 (confirmed): a source with no matching product nodes transforms into
the bare output root with zero item children, this is not an error, and a
run whose other stages succeed ends with exit status 0. -/
theorem empty_source_empty_doc_exit_zero (cfg : Profile) (content : String)
    (parsed : String → Except Unit SourceDoc) (write : OutputDoc → Except Unit Unit)
    (hp : parsed content = .ok ⟨[]⟩)
    (hw : write ⟨cfg.OUTPUT_ROOT_ELEMENT, []⟩ = .ok ()) :
    transform_feed ⟨[]⟩ cfg = ⟨cfg.OUTPUT_ROOT_ELEMENT, []⟩
      ∧ runMain (.ok content) parsed cfg write = (0, some ⟨cfg.OUTPUT_ROOT_ELEMENT, []⟩) := by
  have ht : transform_feed ⟨[]⟩ cfg = ⟨cfg.OUTPUT_ROOT_ELEMENT, []⟩ := rfl
  refine ⟨ht, ?_⟩
  simp only [runMain, hp, ht, hw]

/-- Witness for C9 at a concrete run: empty feed, successful parse and
write, ozone profile — exit status 0 and the bare "products" root. -/
theorem empty_source_empty_doc_exit_zero_witness :
    runMain (.ok "feed") (fun _ => .ok ⟨[]⟩) Ozone.profile (fun _ => .ok ())
      = (0, some ⟨"products", []⟩) :=
  (empty_source_empty_doc_exit_zero Ozone.profile "feed" (fun _ => .ok ⟨[]⟩)
      (fun _ => .ok ()) rfl rfl).2

/-- C10 (confirmed): the ozone transform backstops barcode, brand and color
with the non-empty default "N/A", so they are never empty in the returned
record, while category is backstopped with the empty string and so may be
empty (as it is for a record extracted with no category). -/
theorem ozone_nonempty_defaults :
    (∀ raw : Dict,
        (dictGetD (Ozone.transform_product raw) "barcode" "" == "") = false
          ∧ (dictGetD (Ozone.transform_product raw) "brand" "" == "") = false
          ∧ (dictGetD (Ozone.transform_product raw) "color" "" == "") = false)
      ∧ dictGet? (Ozone.transform_product []) "category" = some "" := by
  refine ⟨fun raw => ⟨?_, ?_, ?_⟩, by decide⟩
  · exact pyOr_nonempty (dictGetD raw "barcode" "N/A") "N/A" (by decide)
  · exact pyOr_nonempty (dictGetD raw "brand" "N/A") "N/A" (by decide)
  · exact pyOr_nonempty (dictGetD raw "color" "N/A") "N/A" (by decide)

/-- Decoding undoes markup escaping on every character list. -/
theorem unescape_escape_chars (l : List Char) : unescapeChars (escapeChars l) = l := by
  induction l with
  | nil => simp [escapeChars, unescapeChars]
  | cons c rest ih =>
    by_cases h1 : c = '&'
    · subst h1
      simp [escapeChars, unescapeChars, charsLead, ih]
    · by_cases h2 : c = '<'
      · subst h2
        simp [escapeChars, unescapeChars, charsLead, ih]
      · by_cases h3 : c = '>'
        · subst h3
          simp [escapeChars, unescapeChars, charsLead, ih]
        · simp [escapeChars, unescapeChars, h1, h2, h3, ih]

/-- Markup escaping leaves no raw markup-opening character in the output. -/
theorem escape_no_raw_lt (l : List Char) : '<' ∉ escapeChars l := by
  induction l with
  | nil => simp [escapeChars]
  | cons c rest ih =>
    by_cases h1 : c = '&'
    · subst h1
      simp [escapeChars, ih]
    · by_cases h2 : c = '<'
      · subst h2
        simp [escapeChars, ih]
      · by_cases h3 : c = '>'
        · subst h3
          simp [escapeChars, ih]
        · simp [escapeChars, h1, h2, h3, ih]
          exact fun hh => h2 hh.symm

/-- Every CDATA-stored field value in the emission result is non-empty and
free of "]]>": `transform_feed` only routes non-empty values to CDATA, and
`etree.CDATA` aborts the product before a value containing "]]>" is stored. -/
theorem emitFields_cdata_inv (schema : List SchemaField) (out : Dict) :
    ∀ f ∈ (emitFields schema out).1, ∀ s, f.val = some (.cdata s) →
      (s == "") = false ∧ strContains s "]]>" = false := by
  induction schema with
  | nil =>
    intro f hf
    simp [emitFields] at hf
  | cons e rest ih =>
    intro f hf s hs
    cases hq : dictGet? out e.name with
    | none =>
      simp only [emitFields, hq] at hf
      exact ih f hf s hs
    | some value =>
      simp only [emitFields, hq] at hf
      by_cases hc : (e.use_cdata && !(value == "")) = true
      · rw [if_pos hc] at hf
        by_cases hcon : strContains value "]]>" = true
        · rw [if_pos hcon] at hf
          simp only [List.mem_singleton] at hf
          rw [hf] at hs
          cases hs
        · rw [if_neg hcon] at hf
          simp only [List.mem_cons] at hf
          rcases hf with hhead | htail
          · rw [hhead] at hs
            have hv : value = s := by
              injection hs with hs2
              injection hs2
            subst hv
            refine ⟨?_, ?_⟩
            · have := (Bool.and_eq_true _ _).mp hc
              simpa using this.2
            · simpa using hcon
          · exact ih f htail s hs
      · rw [if_neg hc] at hf
        simp only [List.mem_cons] at hf
        rcases hf with hhead | htail
        · rw [hhead] at hs
          injection hs with hs2
          cases hs2
        · exact ih f htail s hs

/-- C8 (confirmed): every field the emission loop stored as CDATA serializes
with its value embedded verbatim — no markup escaping is applied, so `<` and
`&` inside it are not interpreted as markup — and the value is non-empty and
contains no "]]>", which is exactly the well-formedness condition for the
CDATA section to parse back intact; every plain-text field serializes with
standard markup escaping, whose decoding restores the value and which leaves
no raw markup-opening character in the text. -/
theorem cdata_fields_not_escaped (schema : List SchemaField) (out : Dict) (f : OutField)
    (hf : f ∈ (emitFields schema out).1) :
    (∀ s, f.val = some (.cdata s) →
        serializeField f = "<" ++ f.tag ++ "><![CDATA[" ++ s ++ "]]></" ++ f.tag ++ ">"
          ∧ (s == "") = false ∧ strContains s "]]>" = false)
      ∧ ∀ s, f.val = some (.txt s) →
          serializeField f = "<" ++ f.tag ++ ">" ++ escapeXml s ++ "</" ++ f.tag ++ ">"
            ∧ unescapeXml (escapeXml s) = s
            ∧ '<' ∉ (escapeXml s).data := by
  constructor
  · intro s hs
    have hser : serializeField f = "<" ++ f.tag ++ "><![CDATA[" ++ s ++ "]]></" ++ f.tag ++ ">" := by
      obtain ⟨tag, val⟩ := f
      cases hs
      rfl
    exact ⟨hser, emitFields_cdata_inv schema out f hf s hs⟩
  · intro s hs
    have hser : serializeField f = "<" ++ f.tag ++ ">" ++ escapeXml s ++ "</" ++ f.tag ++ ">" := by
      obtain ⟨tag, val⟩ := f
      cases hs
      rfl
    refine ⟨hser, ?_, escape_no_raw_lt s.data⟩
    show String.mk (unescapeChars (escapeChars s.data)) = s
    rw [unescape_escape_chars]

/-- Witness for C8: the ozone name field (CDATA-flagged) emitted for the
value "a<b&c" serializes with the markup metacharacters verbatim inside the
CDATA section. -/
theorem cdata_fields_not_escaped_witness :
    serializeField ⟨"name", some (.cdata "a<b&c")⟩
        = "<" ++ "name" ++ "><![CDATA[" ++ "a<b&c" ++ "]]></" ++ "name" ++ ">"
      ∧ ("a<b&c" == "") = false ∧ strContains "a<b&c" "]]>" = false :=
  (cdata_fields_not_escaped Ozone.OUTPUT_SCHEMA [("name", "a<b&c")]
      ⟨"name", some (.cdata "a<b&c")⟩ (by decide)).1 "a<b&c" rfl
